import Mathlib

/-!
Shallow embedding of `src/server.js` (a Socket.IO truth-and-dare server backed
by MongoDB). Pure data is modelled directly; each socket event handler becomes
a function from the server state (the MongoDB contents), the connection's
cached `socket.user` document and the handler's payload to the new state plus
the ordered list of emits it performs. `Date.now()` is modelled as an explicit
`now : Nat` (milliseconds) and `Math.random()` as an explicit rational
`r ∈ [0,1)` supplied to the handler.
-/

/-- An entry of a `dares` or `truths` array (`itemSchema`: `{id, text}`). -/
structure Item where
  id : String
  text : String
deriving DecidableEq, Repr

/-- A `User` document (`userSchema`). -/
structure Profile where
  id : String
  password : String
  username : String
  dares : List Item
  truths : List Item
deriving DecidableEq, Repr

/-- A `Message` document (`messageSchema`); timestamps are milliseconds. -/
structure Message where
  username : String
  message : String
  timestamp : Nat
deriving DecidableEq, Repr

/-- The MongoDB contents: the `User` collection and the `Message` collection,
in insertion (natural) order. -/
structure ServerState where
  users : List Profile
  messages : List Message
deriving DecidableEq, Repr

/-- The `currentUser` field of the `init` payload, and an entry of the
`userList` broadcast. -/
structure CurrentUser where
  id : String
  username : String
deriving DecidableEq, Repr

/-- The payload of the `init` event. -/
structure InitPayload where
  currentUser : CurrentUser
  dares : List Item
  truths : List Item
  messages : List Message
deriving DecidableEq, Repr

/-- An element pushed onto `allItems` in the `revealItem` handler. -/
structure RevealEntry where
  text : String
  owner : String
deriving DecidableEq, Repr

/-- Destination of an emit: `socket.emit` (toSelf), `io.emit` (toAll) or
`socket.broadcast.emit` (toOthers). -/
inductive Target where
  | toSelf
  | toAll
  | toOthers
deriving DecidableEq, Repr

/-- The named server-to-client events together with their payloads. -/
inductive EventOut where
  | init (p : InitPayload)
  | userList (roster : List CurrentUser)
  | updateOwnDares (items : List Item)
  | updateOwnTruths (items : List Item)
  | newMessage (m : Message)
  | revealResult (text : String)
  | revealNotification (username item : String)
  | usernameUpdated (name : String)
  | messagesUpdated (msgs : List Message)
  | clearChatBroadcast
deriving DecidableEq, Repr

/-- One emit performed by a handler. -/
abbrev Emit := Target × EventOut

/-- The hard-coded credential registry `VALID_USERS`. -/
def VALID_USERS : List (String × String) :=
  [("betu", "bubu"), ("puchu", "shona")]

/-- The JS property access `VALID_USERS[id]` (as an option). -/
def validLookup (id : String) : Option String :=
  (VALID_USERS.find? (fun p => p.fst == id)).map Prod.snd

/-- The query `User.findOne({id})` over a user list: first document whose
`id` field matches. -/
def findUserIn (users : List Profile) (uid : String) : Option Profile :=
  users.find? (fun u => u.id == uid)

/-- The query `User.findOne({id})` against the state. -/
def findUser (s : ServerState) (uid : String) : Option Profile :=
  findUserIn s.users uid

/-- The default usernames chosen by `ensureDefaultUsers`. -/
def defaultUsernameFor (id : String) : String :=
  if id == "betu" then "shona (shri)"
  else if id == "puchu" then "betuu (moni)"
  else id

/-- The startup routine `ensureDefaultUsers`: for each registry entry, create
the user document (with empty lists and the default username) if absent. -/
def ensureDefaultUsers (s : ServerState) : ServerState :=
  VALID_USERS.foldl (fun acc p =>
    match findUserIn acc.users p.fst with
    | some _ => acc
    | none =>
      { acc with users := acc.users ++ [⟨p.fst, p.snd, defaultUsernameFor p.fst, [], []⟩] }) s

/-- A state with empty collections. -/
def emptyState : ServerState := ⟨[], []⟩

/-- The state right after startup against an empty database. -/
def initialState : ServerState := ensureDefaultUsers emptyState

/-- The auth middleware `io.use`: accept iff `id` and `password` are truthy
(non-empty) and `VALID_USERS[id] === password`; on success fetch (or lazily
create) the user document and attach it to the socket. Returns `none` when
the connection is refused. -/
def authMiddleware (s : ServerState) (id password : String) :
    Option (ServerState × Profile) :=
  if id ≠ "" ∧ password ≠ "" ∧ validLookup id = some password then
    match findUser s id with
    | some u => some (s, u)
    | none =>
      let u : Profile := ⟨id, password, id, [], []⟩
      some ({ s with users := s.users ++ [u] }, u)
  else
    none

/-- The query `Message.find({}).sort({timestamp: 1})`. -/
def sortMessages (l : List Message) : List Message :=
  l.mergeSort (fun a b => decide (a.timestamp ≤ b.timestamp))

/-- The `init` payload built by the connection handler (and by
`requestFreshData`) from the freshly fetched user document. -/
def initPayloadFor (fresh : Profile) (s : ServerState) : InitPayload :=
  { currentUser := ⟨fresh.id, fresh.username⟩
    dares := fresh.dares
    truths := fresh.truths
    messages := sortMessages s.messages }

/-- The whole handshake: auth middleware followed by the connection handler's
initial fetch-and-emit. Produces the possibly extended state, the attached
`socket.user` document, and the `init` snapshot sent to this connection;
`none` means the connection was refused (no session event is processed). -/
def connect (s : ServerState) (id password : String) :
    Option (ServerState × Profile × InitPayload) :=
  match authMiddleware s id password with
  | none => none
  | some (s1, sock) =>
    match findUser s1 sock.id with
    | none => none
    | some fresh => some (s1, sock, initPayloadFor fresh s1)

/-- The semantics of `User.updateOne(filter, f)`: rewrite the first document
matching the filter, leave everything else in place. -/
def updateFirst (l : List Profile) (p : Profile → Bool) (f : Profile → Profile) :
    List Profile :=
  match l with
  | [] => []
  | u :: rest => if p u then f u :: rest else u :: updateFirst rest p f

/-- The helper `broadcastUserList`: emit the full `(id, username)` roster to
every connected socket. -/
def broadcastUserList (s : ServerState) : Emit :=
  (Target.toAll, EventOut.userList (s.users.map (fun u => ⟨u.id, u.username⟩)))

/-- The `addDare` handler: push `{id: Date.now().toString(), text}` onto the
session user's `dares`, re-fetch, reply with the updated list, broadcast the
roster. -/
def addDare (s : ServerState) (sock : Profile) (now : Nat) (text : String) :
    ServerState × List Emit :=
  let dare : Item := ⟨toString now, text⟩
  let users1 :=
    updateFirst s.users (fun u => u.id == sock.id)
      (fun u => { u with dares := u.dares ++ [dare] })
  let s1 : ServerState := { s with users := users1 }
  match findUser s1 sock.id with
  | some updated => (s1, [(Target.toSelf, EventOut.updateOwnDares updated.dares), broadcastUserList s1])
  | none => (s1, [])

/-- The `addTruth` handler, symmetric to `addDare`. -/
def addTruth (s : ServerState) (sock : Profile) (now : Nat) (text : String) :
    ServerState × List Emit :=
  let truth : Item := ⟨toString now, text⟩
  let users1 :=
    updateFirst s.users (fun u => u.id == sock.id)
      (fun u => { u with truths := u.truths ++ [truth] })
  let s1 : ServerState := { s with users := users1 }
  match findUser s1 sock.id with
  | some updated => (s1, [(Target.toSelf, EventOut.updateOwnTruths updated.truths), broadcastUserList s1])
  | none => (s1, [])

/-- The `deleteItem` handler: on a recognized kind, `$pull` every array entry
whose `id` matches, re-fetch, reply with the updated list; in every case
broadcast the roster afterwards (unless the re-fetch crashed the handler). -/
def deleteItem (s : ServerState) (sock : Profile) (type iid : String) :
    ServerState × List Emit :=
  if type == "dare" then
    let users1 :=
      updateFirst s.users (fun u => u.id == sock.id)
        (fun u => { u with dares := u.dares.filter (fun it => it.id != iid) })
    let s1 : ServerState := { s with users := users1 }
    match findUser s1 sock.id with
    | some updated => (s1, [(Target.toSelf, EventOut.updateOwnDares updated.dares), broadcastUserList s1])
    | none => (s1, [])
  else if type == "truth" then
    let users1 :=
      updateFirst s.users (fun u => u.id == sock.id)
        (fun u => { u with truths := u.truths.filter (fun it => it.id != iid) })
    let s1 : ServerState := { s with users := users1 }
    match findUser s1 sock.id with
    | some updated => (s1, [(Target.toSelf, EventOut.updateOwnTruths updated.truths), broadcastUserList s1])
    | none => (s1, [])
  else
    (s, [broadcastUserList s])

/-- The semantics of the positional `$set {'dares.$.text': newText}`: rewrite
the text of the first array entry whose `id` matches. -/
def setFirstText (l : List Item) (iid newText : String) : List Item :=
  match l with
  | [] => []
  | it :: rest =>
    if it.id == iid then { it with text := newText } :: rest
    else it :: setFirstText rest iid newText

/-- The `editItem` handler: `updateOne({id, 'dares.id': iid}, ...)` matches
the session user's document only when some entry has the given id, and then
rewrites the first such entry's text; re-fetch, reply, broadcast roster. -/
def editItem (s : ServerState) (sock : Profile) (type iid newText : String) :
    ServerState × List Emit :=
  if type == "dare" then
    let users1 :=
      updateFirst s.users
        (fun u => u.id == sock.id && u.dares.any (fun it => it.id == iid))
        (fun u => { u with dares := setFirstText u.dares iid newText })
    let s1 : ServerState := { s with users := users1 }
    match findUser s1 sock.id with
    | some updated => (s1, [(Target.toSelf, EventOut.updateOwnDares updated.dares), broadcastUserList s1])
    | none => (s1, [])
  else if type == "truth" then
    let users1 :=
      updateFirst s.users
        (fun u => u.id == sock.id && u.truths.any (fun it => it.id == iid))
        (fun u => { u with truths := setFirstText u.truths iid newText })
    let s1 : ServerState := { s with users := users1 }
    match findUser s1 sock.id with
    | some updated => (s1, [(Target.toSelf, EventOut.updateOwnTruths updated.truths), broadcastUserList s1])
    | none => (s1, [])
  else
    (s, [broadcastUserList s])

/-- The `sendMessage` handler: create a message whose `username` is the
cached `socket.user.username`, then `io.emit('newMessage', ...)`. -/
def sendMessage (s : ServerState) (sock : Profile) (now : Nat) (text : String) :
    ServerState × List Emit :=
  let m : Message := ⟨sock.username, text, now⟩
  ({ s with messages := s.messages ++ [m] }, [(Target.toAll, EventOut.newMessage m)])

/-- The pool built by the `revealItem` handler: for every user other than the
requester (in collection order), that user's dares then truths, each tagged
with the owner's username. -/
def revealPool (s : ServerState) (sock : Profile) : List RevealEntry :=
  (s.users.filter (fun u => u.id != sock.id)).foldr
    (fun u acc =>
      u.dares.map (fun d => ⟨d.text, u.username⟩) ++
      u.truths.map (fun t => ⟨t.text, u.username⟩) ++ acc) []

/-- The index computed by `Math.floor(Math.random() * allItems.length)` for a
random draw `r ∈ [0,1)`. -/
def revealIndex (r : ℚ) (M : ℕ) : ℕ := (Int.floor (r * (M : ℚ))).toNat

/-- The `revealItem` handler: on a non-empty pool, pick
`allItems[floor(r * length)]`, reply with its text and notify every other
socket; on an empty pool reply with the fixed sentinel string. -/
def revealItem (s : ServerState) (sock : Profile) (r : ℚ) :
    ServerState × List Emit :=
  let allItems := revealPool s sock
  if 0 < allItems.length then
    let random := allItems.getD (revealIndex r allItems.length) ⟨"", ""⟩
    (s, [(Target.toSelf, EventOut.revealResult random.text),
         (Target.toOthers, EventOut.revealNotification sock.username random.text)])
  else
    (s, [(Target.toSelf, EventOut.revealResult "No items from your partner yet!")])

/-- The `clearChat` handler: delete every message, notify everyone. -/
def clearChat (s : ServerState) : ServerState × List Emit :=
  ({ s with messages := [] }, [(Target.toAll, EventOut.clearChatBroadcast)])

/-- The behavior of JS `String.prototype.trim()`: strip leading and trailing
whitespace. -/
def jsTrim (s : String) : String :=
  ⟨((s.data.dropWhile Char.isWhitespace).reverse.dropWhile Char.isWhitespace).reverse⟩

/-- The `editUsername` handler: ignore blank names; otherwise set the user's
`username` to the trimmed value, rewrite every message whose `username`
equals the cached `socket.user.username` (the name fetched when this
connection authenticated), confirm to the requester, broadcast the roster
and the re-sorted message log. -/
def editUsername (s : ServerState) (sock : Profile) (newUsername : String) :
    ServerState × List Emit :=
  if newUsername ≠ "" ∧ jsTrim newUsername ≠ "" then
    let oldName := sock.username
    let trimmed := jsTrim newUsername
    let users1 :=
      updateFirst s.users (fun u => u.id == sock.id)
        (fun u => { u with username := trimmed })
    let s1 : ServerState := { s with users := users1 }
    let messages2 :=
      s1.messages.map
        (fun m => if m.username == oldName then { m with username := trimmed } else m)
    let s2 : ServerState := { s1 with messages := messages2 }
    (s2, [(Target.toSelf, EventOut.usernameUpdated trimmed), broadcastUserList s2,
          (Target.toAll, EventOut.messagesUpdated (sortMessages s2.messages))])
  else
    (s, [])

/-- The `requestFreshData` handler: re-send the `init` payload. -/
def requestFreshData (s : ServerState) (sock : Profile) :
    ServerState × List Emit :=
  match findUser s sock.id with
  | some fresh => (s, [(Target.toSelf, EventOut.init (initPayloadFor fresh s))])
  | none => (s, [])

/-- The client-to-server events handled while a connection is active. -/
inductive ClientEvent where
  | addDare (text : String)
  | addTruth (text : String)
  | deleteItem (type iid : String)
  | editItem (type iid newText : String)
  | sendMessage (text : String)
  | revealItem
  | clearChat
  | editUsername (newUsername : String)
  | requestFreshData
deriving DecidableEq, Repr

/-- Dispatch of one inbound event to its handler. -/
def step (s : ServerState) (sock : Profile) (now : Nat) (r : ℚ) :
    ClientEvent → ServerState × List Emit
  | .addDare text => addDare s sock now text
  | .addTruth text => addTruth s sock now text
  | .deleteItem type iid => deleteItem s sock type iid
  | .editItem type iid newText => editItem s sock type iid newText
  | .sendMessage text => sendMessage s sock now text
  | .revealItem => revealItem s sock r
  | .clearChat => clearChat s
  | .editUsername newUsername => editUsername s sock newUsername
  | .requestFreshData => requestFreshData s sock

/-!
Concrete scenarios used by witnesses and counterexamples. `sockBetu` and
`sockPuchu` are the `socket.user` documents attached when the respective user
connects against the freshly initialized database.
-/

def sockBetu : Profile := ⟨"betu", "bubu", "shona (shri)", [], []⟩

def sockPuchu : Profile := ⟨"puchu", "shona", "betuu (moni)", [], []⟩

def oneDareState : ServerState := (addDare initialState sockBetu 5 "jump").1

def betuWithDare : Profile := ⟨"betu", "bubu", "shona (shri)", [⟨"5", "jump"⟩], []⟩

def dupState : ServerState :=
  (addDare (addDare initialState sockBetu 5 "a").1 sockBetu 5 "b").1

def renamedState : ServerState := (editUsername initialState sockBetu "neo").1

def msgState : ServerState := (sendMessage initialState sockBetu 1 "hi").1

def renameBState : ServerState := (editUsername msgState sockBetu "B").1

def renameCState : ServerState := (editUsername renameBState sockBetu "C").1

/-- Decimal digit list of a natural number, most significant first. -/
def decDigits (n : Nat) : List Char :=
  if _h : n < 10 then [Nat.digitChar n]
  else decDigits (n / 10) ++ [Nat.digitChar (n % 10)]
termination_by n
decreasing_by exact Nat.div_lt_self (by omega) (by omega)

def revealState : ServerState := (addDare initialState sockPuchu 7 "kiss").1

/-! Theorems. -/

/-- Generic: a failed search on a prefix passes through an append. -/
theorem find?_append_of_none {α : Type} (p : α → Bool) (l1 l2 : List α)
    (h : l1.find? p = none) : (l1 ++ l2).find? p = l2.find? p := by
  induction l1 with
  | nil => simp
  | cons a t ih =>
    rw [List.cons_append]
    cases hp : p a with
    | false =>
      simp only [List.find?, hp] at h ⊢
      exact ih h
    | true =>
      simp only [List.find?, hp] at h
      exact Option.noConfusion h

/-- If no element satisfies the filter, `updateFirst` changes nothing. -/
theorem updateFirst_eq_self (l : List Profile) (p : Profile → Bool)
    (f : Profile → Profile) (h : ∀ u ∈ l, p u = false) :
    updateFirst l p f = l := by
  induction l with
  | nil => rfl
  | cons a t ih =>
    simp only [updateFirst]
    rw [h a (List.mem_cons_self a t)]
    simp only [Bool.false_eq_true, if_false, List.cons.injEq, true_and]
    exact ih (fun u hu => h u (List.mem_cons_of_mem a hu))

/-- Searching by id after `updateFirst` keyed on the same id finds the
rewritten document, provided the rewrite keeps the id. -/
theorem findUserIn_updateFirst (l : List Profile) (uid : String)
    (f : Profile → Profile) (u0 : Profile)
    (hfind : findUserIn l uid = some u0) (hf : (f u0).id = u0.id) :
    findUserIn (updateFirst l (fun u => u.id == uid) f) uid = some (f u0) := by
  induction l with
  | nil => exact Option.noConfusion hfind
  | cons a t ih =>
    unfold findUserIn at hfind ⊢
    cases hp : (a.id == uid) with
    | true =>
      simp only [List.find?, hp] at hfind
      have ha : a = u0 := Option.some_inj.mp hfind
      subst ha
      simp only [updateFirst, hp, if_true]
      have hp2 : ((f a).id == uid) = true := by rw [hf]; exact hp
      simp only [List.find?, hp2]
    | false =>
      simp only [List.find?, hp] at hfind
      simp only [updateFirst, hp, Bool.false_eq_true, if_false]
      simp only [List.find?, hp]
      exact ih hfind

/-- Pointwise: `updateFirst` leaves every document failing the filter as it
was (same position, same contents). -/
theorem forall₂_updateFirst (l : List Profile) (p : Profile → Bool)
    (f : Profile → Profile) :
    List.Forall₂ (fun u v => p u = false → v = u) l (updateFirst l p f) := by
  induction l with
  | nil => exact List.Forall₂.nil
  | cons a t ih =>
    simp only [updateFirst]
    cases hp : p a with
    | true =>
      simp only [if_true]
      refine List.Forall₂.cons ?_ (List.forall₂_same.mpr (fun x _ _ => rfl))
      intro hfalse
      rw [hp] at hfalse
      exact absurd hfalse (by simp)
    | false =>
      simp only [Bool.false_eq_true, if_false]
      exact List.Forall₂.cons (fun _ => rfl) ih

/-- The registry has exactly two entries. -/
theorem validLookup_cases (id pw : String) (h : validLookup id = some pw) :
    (id = "betu" ∧ pw = "bubu") ∨ (id = "puchu" ∧ pw = "shona") := by
  by_cases h1 : id = "betu"
  · subst h1
    have hv : validLookup "betu" = some "bubu" := by decide
    rw [hv] at h
    exact Or.inl ⟨rfl, (Option.some_inj.mp h).symm⟩
  · by_cases h2 : id = "puchu"
    · subst h2
      have hv : validLookup "puchu" = some "shona" := by decide
      rw [hv] at h
      exact Or.inr ⟨rfl, (Option.some_inj.mp h).symm⟩
    · exfalso
      have e1 : ((("betu", "bubu") : String × String).fst == id) = false := by
        simp only [beq_eq_false_iff_ne, ne_eq]
        exact fun hh => h1 hh.symm
      have e2 : ((("puchu", "shona") : String × String).fst == id) = false := by
        simp only [beq_eq_false_iff_ne, ne_eq]
        exact fun hh => h2 hh.symm
      unfold validLookup VALID_USERS at h
      simp only [List.find?, e1, e2] at h
      exact Option.noConfusion h

/-- C1: a registry pair with matching credential is accepted and the snapshot
names the supplied id; any other pair is refused before any session event. -/
theorem connect_auth_correct (s : ServerState) (id pw : String) :
    (validLookup id = some pw →
      ∃ s1 sock p, connect s id pw = some (s1, sock, p) ∧ p.currentUser.id = id) ∧
    (validLookup id ≠ some pw → connect s id pw = none) := by
  constructor
  · intro h
    have hne : id ≠ "" ∧ pw ≠ "" := by
      rcases validLookup_cases id pw h with ⟨h1, h2⟩ | ⟨h1, h2⟩ <;>
        (subst h1; subst h2; exact ⟨by decide, by decide⟩)
    unfold connect authMiddleware
    rw [if_pos ⟨hne.1, hne.2, h⟩]
    cases hfind : findUser s id with
    | some u =>
      have hu : u.id = id := by
        have hb := List.find?_some hfind
        simpa using hb
      refine ⟨s, u, initPayloadFor u s, ?_, ?_⟩
      · simp only [hu, hfind]
      · simp [initPayloadFor, hu]
    | none =>
      set u : Profile := ⟨id, pw, id, [], []⟩ with hu
      have hfind2 : findUser { s with users := s.users ++ [u] } id = some u := by
        unfold findUser findUserIn at hfind ⊢
        rw [find?_append_of_none _ _ _ hfind]
        have hp : (u.id == id) = true := by simp [hu]
        simp only [List.find?, hp]
      refine ⟨{ s with users := s.users ++ [u] }, u,
        initPayloadFor u { s with users := s.users ++ [u] }, ?_, ?_⟩
      · simp only [hu, hfind2]
      · simp [initPayloadFor, hu]
  · intro h
    unfold connect authMiddleware
    rw [if_neg (fun hc => h hc.2.2)]

/-- C1 witness: the pair (betu, bubu) is accepted with snapshot id betu; the
pair (betu, nope) is refused. -/
theorem connect_auth_correct_witness :
    (∃ s1 sock p, connect initialState "betu" "bubu" = some (s1, sock, p) ∧
      p.currentUser.id = "betu") ∧
    connect initialState "betu" "nope" = none :=
  ⟨(connect_auth_correct initialState "betu" "bubu").1 (by decide),
   (connect_auth_correct initialState "betu" "nope").2 (by decide)⟩

/-- The first component of the fetch-then-reply pattern shared by the
mutation handlers: whatever the re-fetch returns, the state is the one
produced by the update. -/
theorem fst_of_match (x : Option Profile) (s1 : ServerState)
    (g : Profile → List Emit) (l : List Emit) :
    (match x with
     | some u => (s1, g u)
     | none => (s1, l)).1 = s1 := by
  cases x <;> rfl

/-- State reached by `addDare`. -/
theorem addDare_state (s : ServerState) (sock : Profile) (now : Nat) (text : String) :
    (addDare s sock now text).1 =
      ServerState.mk
        (updateFirst s.users (fun u => u.id == sock.id)
          (fun u => { u with dares := u.dares ++ [⟨toString now, text⟩] }))
        s.messages := by
  unfold addDare
  exact fst_of_match _ _ _ _

/-- State reached by `addTruth`. -/
theorem addTruth_state (s : ServerState) (sock : Profile) (now : Nat) (text : String) :
    (addTruth s sock now text).1 =
      ServerState.mk
        (updateFirst s.users (fun u => u.id == sock.id)
          (fun u => { u with truths := u.truths ++ [⟨toString now, text⟩] }))
        s.messages := by
  unfold addTruth
  exact fst_of_match _ _ _ _

/-- State reached by `deleteItem` on kind dare. -/
theorem deleteItem_dare_state (s : ServerState) (sock : Profile) (iid : String) :
    (deleteItem s sock "dare" iid).1 =
      ServerState.mk
        (updateFirst s.users (fun u => u.id == sock.id)
          (fun u => { u with dares := u.dares.filter (fun it => it.id != iid) }))
        s.messages := by
  unfold deleteItem
  rw [if_pos (by decide)]
  exact fst_of_match _ _ _ _

/-- State reached by `deleteItem` on kind truth. -/
theorem deleteItem_truth_state (s : ServerState) (sock : Profile) (iid : String) :
    (deleteItem s sock "truth" iid).1 =
      ServerState.mk
        (updateFirst s.users (fun u => u.id == sock.id)
          (fun u => { u with truths := u.truths.filter (fun it => it.id != iid) }))
        s.messages := by
  unfold deleteItem
  rw [if_neg (by decide), if_pos (by decide)]
  exact fst_of_match _ _ _ _

/-- State reached by `editItem` on kind dare. -/
theorem editItem_dare_state (s : ServerState) (sock : Profile) (iid newText : String) :
    (editItem s sock "dare" iid newText).1 =
      ServerState.mk
        (updateFirst s.users
          (fun u => u.id == sock.id && u.dares.any (fun it => it.id == iid))
          (fun u => { u with dares := setFirstText u.dares iid newText }))
        s.messages := by
  unfold editItem
  rw [if_pos (by decide)]
  exact fst_of_match _ _ _ _

/-- State reached by `editItem` on kind truth. -/
theorem editItem_truth_state (s : ServerState) (sock : Profile) (iid newText : String) :
    (editItem s sock "truth" iid newText).1 =
      ServerState.mk
        (updateFirst s.users
          (fun u => u.id == sock.id && u.truths.any (fun it => it.id == iid))
          (fun u => { u with truths := setFirstText u.truths iid newText }))
        s.messages := by
  unfold editItem
  rw [if_neg (by decide), if_pos (by decide)]
  exact fst_of_match _ _ _ _

/-- The reveal handler never changes the state. -/
theorem revealItem_state (s : ServerState) (sock : Profile) (r : ℚ) :
    (revealItem s sock r).1 = s := by
  simp only [revealItem]
  split <;> rfl

/-- State reached by a valid `editUsername`. -/
theorem editUsername_state (s : ServerState) (sock : Profile) (newUsername : String)
    (h : newUsername ≠ "" ∧ jsTrim newUsername ≠ "") :
    (editUsername s sock newUsername).1 =
      ServerState.mk
        (updateFirst s.users (fun u => u.id == sock.id)
          (fun u => { u with username := jsTrim newUsername }))
        (s.messages.map
          (fun m => if m.username == sock.username then { m with username := jsTrim newUsername } else m)) := by
  unfold editUsername
  rw [if_pos h]

/-- The refresh handler never changes the state. -/
theorem requestFreshData_state (s : ServerState) (sock : Profile) :
    (requestFreshData s sock).1 = s := by
  unfold requestFreshData
  exact fst_of_match _ _ _ _

/-- Shared computation: an unrecognized kind skips both branches, leaving
only the trailing roster broadcast. -/
theorem unknownKind_aux (s : ServerState) (sock : Profile)
    (type iid newText : String) (h1 : type ≠ "dare") (h2 : type ≠ "truth") :
    deleteItem s sock type iid = (s, [broadcastUserList s]) ∧
    editItem s sock type iid newText = (s, [broadcastUserList s]) := by
  have e1 : (type == "dare") = false := beq_eq_false_iff_ne.mpr h1
  have e2 : (type == "truth") = false := beq_eq_false_iff_ne.mpr h2
  constructor
  · simp [deleteItem, e1, e2]
  · simp [editItem, e1, e2]

/-- C10: deleteItem and editItem with a kind that is neither dare nor truth
change no profile state and send no updateOwnDares or updateOwnTruths reply,
yet still trigger the roster broadcast to all sessions. -/
theorem unknownKind_noop (s : ServerState) (sock : Profile)
    (type iid newText : String) (h1 : type ≠ "dare") (h2 : type ≠ "truth") :
    deleteItem s sock type iid = (s, [broadcastUserList s]) ∧
    editItem s sock type iid newText = (s, [broadcastUserList s]) :=
  unknownKind_aux s sock type iid newText h1 h2

/-- Every handler either leaves the user collection alone or rewrites it with
`updateFirst` under a filter that only matches the session's own id. -/
theorem step_users_shape (s : ServerState) (sock : Profile) (now : Nat) (r : ℚ)
    (e : ClientEvent) :
    (step s sock now r e).1.users = s.users ∨
    ∃ (p : Profile → Bool) (f : Profile → Profile),
      (∀ u : Profile, p u = true → u.id = sock.id) ∧
      (step s sock now r e).1.users = updateFirst s.users p f := by
  have hbeq : ∀ u : Profile, (u.id == sock.id) = true → u.id = sock.id := by
    intro u h
    simpa using h
  have hand : ∀ (g : Profile → Bool) (u : Profile),
      (u.id == sock.id && g u) = true → u.id = sock.id := by
    intro g u h
    exact hbeq u (Bool.and_elim_left h)
  cases e with
  | addDare text =>
    exact Or.inr ⟨_, _, hbeq, congrArg ServerState.users (addDare_state s sock now text)⟩
  | addTruth text =>
    exact Or.inr ⟨_, _, hbeq, congrArg ServerState.users (addTruth_state s sock now text)⟩
  | deleteItem type iid =>
    by_cases h1 : type = "dare"
    · subst h1
      exact Or.inr ⟨_, _, hbeq, congrArg ServerState.users (deleteItem_dare_state s sock iid)⟩
    · by_cases h2 : type = "truth"
      · subst h2
        exact Or.inr ⟨_, _, hbeq, congrArg ServerState.users (deleteItem_truth_state s sock iid)⟩
      · left
        rw [show (step s sock now r (ClientEvent.deleteItem type iid)).1 = s from
          congrArg Prod.fst (unknownKind_aux s sock type iid "" h1 h2).1]
  | editItem type iid newText =>
    by_cases h1 : type = "dare"
    · subst h1
      exact Or.inr ⟨_, _, hand _, congrArg ServerState.users (editItem_dare_state s sock iid newText)⟩
    · by_cases h2 : type = "truth"
      · subst h2
        exact Or.inr ⟨_, _, hand _, congrArg ServerState.users (editItem_truth_state s sock iid newText)⟩
      · left
        rw [show (step s sock now r (ClientEvent.editItem type iid newText)).1 = s from
          congrArg Prod.fst (unknownKind_aux s sock type iid newText h1 h2).2]
  | sendMessage text => exact Or.inl rfl
  | revealItem =>
    left
    rw [show (step s sock now r ClientEvent.revealItem).1 = s from revealItem_state s sock r]
  | clearChat => exact Or.inl rfl
  | editUsername newUsername =>
    by_cases h : newUsername ≠ "" ∧ jsTrim newUsername ≠ ""
    · exact Or.inr ⟨_, _, hbeq, congrArg ServerState.users (editUsername_state s sock newUsername h)⟩
    · left
      show (editUsername s sock newUsername).1.users = s.users
      unfold editUsername
      rw [if_neg h]
  | requestFreshData =>
    left
    rw [show (step s sock now r ClientEvent.requestFreshData).1 = s from requestFreshData_state s sock]

/-- C7: no inbound event ever changes the dare or truth collection of any
profile other than the one bound to the session (pointwise over the stored
user collection, whatever payload the client supplies). -/
theorem step_frames_other_profiles (s : ServerState) (sock : Profile)
    (now : Nat) (r : ℚ) (e : ClientEvent) :
    List.Forall₂ (fun u v => u.id ≠ sock.id → v.dares = u.dares ∧ v.truths = u.truths)
      s.users (step s sock now r e).1.users := by
  rcases step_users_shape s sock now r e with h | ⟨p, f, hp, h⟩
  · rw [h]
    exact List.forall₂_same.mpr (fun x _ _ => ⟨rfl, rfl⟩)
  · rw [h]
    refine (forall₂_updateFirst s.users p f).imp ?_
    intro u v huv hne
    have hpu : p u = false := by
      cases hval : p u with
      | false => rfl
      | true => exact absurd (hp u hval) hne
    rw [huv hpu]
    exact ⟨rfl, rfl⟩

/-- C9: a reveal against an empty pool replies to the requester with the fixed
sentinel only: no notification to anyone else, no state change. -/
theorem revealItem_empty_sentinel (s : ServerState) (sock : Profile) (r : ℚ)
    (h : revealPool s sock = []) :
    revealItem s sock r =
      (s, [(Target.toSelf, EventOut.revealResult "No items from your partner yet!")]) := by
  simp [revealItem, h]

/-- C9 witness: with the two freshly created users (no items), a reveal by
betu yields exactly the sentinel reply. -/
theorem revealItem_empty_sentinel_witness :
    revealItem initialState sockBetu 0 =
      (initialState, [(Target.toSelf, EventOut.revealResult "No items from your partner yet!")]) :=
  revealItem_empty_sentinel initialState sockBetu 0 (by decide)

/-- C10 witness: a banana-typed delete and edit leave the state unchanged and
emit only the roster broadcast. -/
theorem unknownKind_noop_witness :
    deleteItem initialState sockBetu "banana" "5" =
      (initialState, [broadcastUserList initialState]) ∧
    editItem initialState sockBetu "banana" "5" "x" =
      (initialState, [broadcastUserList initialState]) :=
  unknownKind_noop initialState sockBetu "banana" "5" "x" (by decide) (by decide)

/-- The second component of the fetch-then-reply pattern once the re-fetch
result is known. -/
theorem snd_of_match (x : Option Profile) (s1 : ServerState)
    (g : Profile → List Emit) (l : List Emit) (u : Profile) (hx : x = some u) :
    (match x with
     | some v => (s1, g v)
     | none => (s1, l)).2 = g u := by
  subst hx
  rfl

/-- C8: editing a nonexistent id (of either recognized kind) leaves the state
untouched and still replies with the unchanged collection, plus the roster
broadcast; no error is surfaced. -/
theorem editItem_absent_noop (s : ServerState) (sock : Profile)
    (iid newText : String) (u0 : Profile) (hfind : findUser s sock.id = some u0) :
    ((∀ u ∈ s.users, u.id = sock.id → ∀ it ∈ u.dares, it.id ≠ iid) →
      editItem s sock "dare" iid newText =
        (s, [(Target.toSelf, EventOut.updateOwnDares u0.dares), broadcastUserList s])) ∧
    ((∀ u ∈ s.users, u.id = sock.id → ∀ it ∈ u.truths, it.id ≠ iid) →
      editItem s sock "truth" iid newText =
        (s, [(Target.toSelf, EventOut.updateOwnTruths u0.truths), broadcastUserList s])) := by
  constructor
  · intro hall
    have husers : updateFirst s.users
        (fun u => u.id == sock.id && u.dares.any (fun it => it.id == iid))
        (fun u => { u with dares := setFirstText u.dares iid newText }) = s.users := by
      apply updateFirst_eq_self
      intro u hu
      show (u.id == sock.id && u.dares.any (fun it => it.id == iid)) = false
      cases hc : (u.id == sock.id) with
      | false => simp [hc]
      | true =>
        have hid : u.id = sock.id := by simpa using hc
        have hany : u.dares.any (fun it => it.id == iid) = false := by
          rw [List.any_eq_false]
          intro it hit
          simpa using hall u hu hid it hit
        simp [hany]
    simp only [editItem, beq_self_eq_true, if_true]
    rw [husers]
    have h2 : findUser (ServerState.mk s.users s.messages) sock.id = some u0 := hfind
    rw [h2]
  · intro hall
    have husers : updateFirst s.users
        (fun u => u.id == sock.id && u.truths.any (fun it => it.id == iid))
        (fun u => { u with truths := setFirstText u.truths iid newText }) = s.users := by
      apply updateFirst_eq_self
      intro u hu
      show (u.id == sock.id && u.truths.any (fun it => it.id == iid)) = false
      cases hc : (u.id == sock.id) with
      | false => simp [hc]
      | true =>
        have hid : u.id = sock.id := by simpa using hc
        have hany : u.truths.any (fun it => it.id == iid) = false := by
          rw [List.any_eq_false]
          intro it hit
          simpa using hall u hu hid it hit
        simp [hany]
    have e1 : (("truth" : String) == "dare") = false := by decide
    simp only [editItem, e1, Bool.false_eq_true, if_false, beq_self_eq_true, if_true]
    rw [husers]
    have h2 : findUser (ServerState.mk s.users s.messages) sock.id = some u0 := hfind
    rw [h2]

/-- C8 witness: editing id 999 (absent) in betu's one-dare state replies with
the unchanged collections and changes nothing. -/
theorem editItem_absent_noop_witness :
    editItem oneDareState sockBetu "dare" "999" "x" =
      (oneDareState, [(Target.toSelf, EventOut.updateOwnDares [⟨"5", "jump"⟩]),
        broadcastUserList oneDareState]) ∧
    editItem oneDareState sockBetu "truth" "999" "x" =
      (oneDareState, [(Target.toSelf, EventOut.updateOwnTruths []),
        broadcastUserList oneDareState]) :=
  ⟨(editItem_absent_noop oneDareState sockBetu "999" "x" betuWithDare (by decide)).1 (by decide),
   (editItem_absent_noop oneDareState sockBetu "999" "x" betuWithDare (by decide)).2 (by decide)⟩

/-- Emits of `deleteItem` on kind dare, given the session document. -/
theorem deleteItem_dare_emits (s : ServerState) (sock : Profile) (iid : String)
    (u0 : Profile) (hfind : findUser s sock.id = some u0) :
    (deleteItem s sock "dare" iid).2 =
      [(Target.toSelf, EventOut.updateOwnDares (u0.dares.filter (fun it => it.id != iid))),
       broadcastUserList
         (ServerState.mk
           (updateFirst s.users (fun u => u.id == sock.id)
             (fun u => { u with dares := u.dares.filter (fun it => it.id != iid) }))
           s.messages)] := by
  have h2 : findUser
      (ServerState.mk
        (updateFirst s.users (fun u => u.id == sock.id)
          (fun u => { u with dares := u.dares.filter (fun it => it.id != iid) }))
        s.messages) sock.id =
      some { u0 with dares := u0.dares.filter (fun it => it.id != iid) } :=
    findUserIn_updateFirst s.users sock.id _ u0 hfind rfl
  simp only [deleteItem, beq_self_eq_true, if_true]
  rw [h2]

/-- Emits of `deleteItem` on kind truth, given the session document. -/
theorem deleteItem_truth_emits (s : ServerState) (sock : Profile) (iid : String)
    (u0 : Profile) (hfind : findUser s sock.id = some u0) :
    (deleteItem s sock "truth" iid).2 =
      [(Target.toSelf, EventOut.updateOwnTruths (u0.truths.filter (fun it => it.id != iid))),
       broadcastUserList
         (ServerState.mk
           (updateFirst s.users (fun u => u.id == sock.id)
             (fun u => { u with truths := u.truths.filter (fun it => it.id != iid) }))
           s.messages)] := by
  have h2 : findUser
      (ServerState.mk
        (updateFirst s.users (fun u => u.id == sock.id)
          (fun u => { u with truths := u.truths.filter (fun it => it.id != iid) }))
        s.messages) sock.id =
      some { u0 with truths := u0.truths.filter (fun it => it.id != iid) } :=
    findUserIn_updateFirst s.users sock.id _ u0 hfind rfl
  have e1 : (("truth" : String) == "dare") = false := by decide
  simp only [deleteItem, e1, Bool.false_eq_true, if_false, beq_self_eq_true, if_true]
  rw [h2]

/-- For any id-keyed filter, the kept length plus the matching count is the
original length. -/
theorem length_filter_bne_add_countP (l : List Item) (iid : String) :
    (l.filter (fun it => it.id != iid)).length + l.countP (fun it => it.id == iid) = l.length := by
  induction l with
  | nil => rfl
  | cons a t ih =>
    cases h : (a.id == iid) with
    | true =>
      have hb : (a.id != iid) = false := by simp [bne, h]
      rw [List.filter_cons, List.countP_cons]
      simp only [hb, Bool.false_eq_true, if_false, h, if_true, List.length_cons]
      omega
    | false =>
      have hb : (a.id != iid) = true := by simp [bne, h]
      rw [List.filter_cons, List.countP_cons]
      simp only [hb, if_true, h, Bool.false_eq_true, if_false, List.length_cons]
      omega

/-- C5 (amended): deleteItem removes every item of the named kind whose id
matches (exactly one when the id occurs exactly once), keeps the rest
unchanged in relative order, replies with that remainder, and is a no-op on
the collection when the id is absent. -/
theorem deleteItem_filters_by_id (s : ServerState) (sock : Profile) (iid : String)
    (u0 : Profile) (hfind : findUser s sock.id = some u0) :
    ((findUser (deleteItem s sock "dare" iid).1 sock.id).map Profile.dares =
        some (u0.dares.filter (fun it => it.id != iid)) ∧
      (Target.toSelf, EventOut.updateOwnDares (u0.dares.filter (fun it => it.id != iid))) ∈
        (deleteItem s sock "dare" iid).2 ∧
      (u0.dares.filter (fun it => it.id != iid)).Sublist u0.dares ∧
      (∀ it ∈ u0.dares.filter (fun it => it.id != iid), it.id ≠ iid) ∧
      (u0.dares.countP (fun it => it.id == iid) = 1 →
        (u0.dares.filter (fun it => it.id != iid)).length + 1 = u0.dares.length) ∧
      ((∀ it ∈ u0.dares, it.id ≠ iid) →
        u0.dares.filter (fun it => it.id != iid) = u0.dares)) ∧
    ((findUser (deleteItem s sock "truth" iid).1 sock.id).map Profile.truths =
        some (u0.truths.filter (fun it => it.id != iid)) ∧
      (Target.toSelf, EventOut.updateOwnTruths (u0.truths.filter (fun it => it.id != iid))) ∈
        (deleteItem s sock "truth" iid).2 ∧
      (u0.truths.filter (fun it => it.id != iid)).Sublist u0.truths ∧
      (∀ it ∈ u0.truths.filter (fun it => it.id != iid), it.id ≠ iid) ∧
      (u0.truths.countP (fun it => it.id == iid) = 1 →
        (u0.truths.filter (fun it => it.id != iid)).length + 1 = u0.truths.length) ∧
      ((∀ it ∈ u0.truths, it.id ≠ iid) →
        u0.truths.filter (fun it => it.id != iid) = u0.truths)) := by
  constructor
  · refine ⟨?_, ?_, List.filter_sublist _, ?_, ?_, ?_⟩
    · have h2 : findUser
          (ServerState.mk
            (updateFirst s.users (fun u => u.id == sock.id)
              (fun u => { u with dares := u.dares.filter (fun it => it.id != iid) }))
            s.messages) sock.id =
          some { u0 with dares := u0.dares.filter (fun it => it.id != iid) } :=
        findUserIn_updateFirst s.users sock.id _ u0 hfind rfl
      rw [deleteItem_dare_state s sock iid, h2]
      rfl
    · rw [deleteItem_dare_emits s sock iid u0 hfind]
      exact List.mem_cons_self _ _
    · intro it hit
      have := List.of_mem_filter hit
      simpa using this
    · intro hcount
      have := length_filter_bne_add_countP u0.dares iid
      omega
    · intro habsent
      rw [List.filter_eq_self]
      intro a ha
      simpa using habsent a ha
  · refine ⟨?_, ?_, List.filter_sublist _, ?_, ?_, ?_⟩
    · have h2 : findUser
          (ServerState.mk
            (updateFirst s.users (fun u => u.id == sock.id)
              (fun u => { u with truths := u.truths.filter (fun it => it.id != iid) }))
            s.messages) sock.id =
          some { u0 with truths := u0.truths.filter (fun it => it.id != iid) } :=
        findUserIn_updateFirst s.users sock.id _ u0 hfind rfl
      rw [deleteItem_truth_state s sock iid, h2]
      rfl
    · rw [deleteItem_truth_emits s sock iid u0 hfind]
      exact List.mem_cons_self _ _
    · intro it hit
      have := List.of_mem_filter hit
      simpa using this
    · intro hcount
      have := length_filter_bne_add_countP u0.truths iid
      omega
    · intro habsent
      rw [List.filter_eq_self]
      intro a ha
      simpa using habsent a ha

/-- C5 counterexample: after two adds in the same millisecond, betu holds two
dares that share the id "5"; deleting id "5" removes both items, not exactly
one. -/
theorem deleteItem_not_exactly_one :
    (findUser dupState "betu").map Profile.dares = some [⟨"5", "a"⟩, ⟨"5", "b"⟩] ∧
    (findUser (deleteItem dupState sockBetu "dare" "5").1 "betu").map Profile.dares =
      some [] := by
  constructor
  · decide
  · decide

/-- C5 witness: in the one-dare state, deleting the present id "5" removes
exactly that item and replies with the empty remainder; deleting from the
empty truths is a no-op. -/
theorem deleteItem_filters_by_id_witness :
    (findUser (deleteItem oneDareState sockBetu "dare" "5").1 "betu").map Profile.dares =
      some (([⟨"5", "jump"⟩] : List Item).filter (fun it => it.id != "5")) ∧
    (Target.toSelf, EventOut.updateOwnDares (([⟨"5", "jump"⟩] : List Item).filter (fun it => it.id != "5"))) ∈
      (deleteItem oneDareState sockBetu "dare" "5").2 ∧
    (([⟨"5", "jump"⟩] : List Item).countP (fun it => it.id == "5") = 1 →
      (([⟨"5", "jump"⟩] : List Item).filter (fun it => it.id != "5")).length + 1 =
        ([⟨"5", "jump"⟩] : List Item).length) := by
  have h := deleteItem_filters_by_id oneDareState sockBetu "5" betuWithDare (by decide)
  exact ⟨h.1.1, h.1.2.1, h.1.2.2.2.2.1⟩

/-- C3 counterexample: after this session renames betu to neo, a message it
sends still carries the connection-time name, not the profile's current
display name. -/
theorem sendMessage_uses_stale_name :
    (findUser renamedState "betu").map Profile.username = some "neo" ∧
    (sendMessage renamedState sockBetu 100 "hi").1.messages.map Message.username =
      ["shona (shri)"] := by
  constructor
  · decide
  · decide

/-- C3 (amended): sendMessage appends a message whose username is the name
cached on the socket at connection time, and broadcasts it to everyone. -/
theorem sendMessage_appends_cached_snapshot (s : ServerState) (sock : Profile)
    (now : Nat) (text : String) :
    (sendMessage s sock now text).1.messages = s.messages ++ [⟨sock.username, text, now⟩] ∧
    (sendMessage s sock now text).1.users = s.users ∧
    (sendMessage s sock now text).2 =
      [(Target.toAll, EventOut.newMessage ⟨sock.username, text, now⟩)] :=
  ⟨rfl, rfl, rfl⟩

/-- C4 counterexample: a second rename from the same session matches messages
against the connection-time name, so a message already rewritten to "B" (the
display name immediately before the second rename) keeps "B" while the
profile moves on to "C". -/
theorem editUsername_second_rename_misses :
    (findUser renameBState "betu").map Profile.username = some "B" ∧
    renameBState.messages.map Message.username = ["B"] ∧
    (findUser renameCState "betu").map Profile.username = some "C" ∧
    renameCState.messages.map Message.username = ["B"] := by
  refine ⟨?_, ?_, ?_, ?_⟩ <;> decide

/-- Full output of a valid `editUsername`. -/
theorem editUsername_full (s : ServerState) (sock : Profile) (newUsername : String)
    (h : newUsername ≠ "" ∧ jsTrim newUsername ≠ "") :
    editUsername s sock newUsername =
      ((editUsername s sock newUsername).1,
       [(Target.toSelf, EventOut.usernameUpdated (jsTrim newUsername)),
        broadcastUserList (editUsername s sock newUsername).1,
        (Target.toAll,
          EventOut.messagesUpdated (sortMessages (editUsername s sock newUsername).1.messages))]) := by
  unfold editUsername
  rw [if_pos h]

/-- C4 (amended): when the socket's cached name still equals the profile's
current display name (as on the first rename of a session), a valid rename
rewrites exactly the messages bearing that old display name to the trimmed
new name, updates the profile, and the roster broadcast carries the new
name. -/
theorem editUsername_renames_history (s : ServerState) (sock : Profile)
    (newUsername : String) (u0 : Profile)
    (hfind : findUser s sock.id = some u0)
    (hcur : u0.username = sock.username)
    (hvalid : newUsername ≠ "" ∧ jsTrim newUsername ≠ "") :
    (editUsername s sock newUsername).1.messages =
      s.messages.map
        (fun m => if m.username == u0.username then { m with username := jsTrim newUsername } else m) ∧
    (∀ m ∈ (editUsername s sock newUsername).1.messages,
      m.username = u0.username → u0.username = jsTrim newUsername) ∧
    (findUser (editUsername s sock newUsername).1 sock.id).map Profile.username =
      some (jsTrim newUsername) ∧
    broadcastUserList (editUsername s sock newUsername).1 ∈ (editUsername s sock newUsername).2 ∧
    CurrentUser.mk sock.id (jsTrim newUsername) ∈
      (editUsername s sock newUsername).1.users.map (fun u => CurrentUser.mk u.id u.username) := by
  have hstate := editUsername_state s sock newUsername hvalid
  have h2 : findUser
      (ServerState.mk
        (updateFirst s.users (fun u => u.id == sock.id)
          (fun u => { u with username := jsTrim newUsername }))
        (s.messages.map
          (fun m => if m.username == sock.username then { m with username := jsTrim newUsername } else m)))
      sock.id = some { u0 with username := jsTrim newUsername } :=
    findUserIn_updateFirst s.users sock.id _ u0 hfind rfl
  refine ⟨?_, ?_, ?_, ?_, ?_⟩
  · rw [hstate, hcur]
  · intro m hm hmold
    rw [hstate] at hm
    rcases List.mem_map.mp hm with ⟨m0, hm0, hmap⟩
    cases hc : (m0.username == sock.username) with
    | true =>
      rw [hc] at hmap
      simp only [if_true] at hmap
      subst hmap
      exact hmold.symm
    | false =>
      rw [hc] at hmap
      simp only [Bool.false_eq_true, if_false] at hmap
      subst hmap
      exact absurd (hcur ▸ hmold) (by simpa using hc)
  · rw [hstate, h2]
    rfl
  · rw [editUsername_full s sock newUsername hvalid]
    simp
  · rw [hstate]
    have hmem : ({ u0 with username := jsTrim newUsername } : Profile) ∈
        updateFirst s.users (fun u => u.id == sock.id)
          (fun u => { u with username := jsTrim newUsername }) := by
      have := h2
      unfold findUser findUserIn at this
      exact List.mem_of_find?_eq_some this
    have hid : u0.id = sock.id := by
      have hb := List.find?_some hfind
      simpa using hb
    have := List.mem_map_of_mem (fun u => CurrentUser.mk u.id u.username) hmem
    simpa [hid] using this

/-- C4 witness: the first rename of the session (betu, cached name equal to
the stored name) rewrites the one existing message and shows the new name in
the roster. -/
theorem editUsername_renames_history_witness :
    (editUsername msgState sockBetu "B").1.messages =
      msgState.messages.map
        (fun m => if m.username == "shona (shri)" then { m with username := jsTrim "B" } else m) ∧
    (∀ m ∈ (editUsername msgState sockBetu "B").1.messages,
      m.username = "shona (shri)" → ("shona (shri)" : String) = jsTrim "B") ∧
    (findUser (editUsername msgState sockBetu "B").1 "betu").map Profile.username =
      some (jsTrim "B") ∧
    broadcastUserList (editUsername msgState sockBetu "B").1 ∈
      (editUsername msgState sockBetu "B").2 ∧
    CurrentUser.mk "betu" (jsTrim "B") ∈
      (editUsername msgState sockBetu "B").1.users.map (fun u => CurrentUser.mk u.id u.username) := by
  have h := editUsername_renames_history msgState sockBetu "B"
    ⟨"betu", "bubu", "shona (shri)", [], []⟩ (by decide) (by decide) (by decide)
  exact h

theorem decDigits_small (n : Nat) (h : n < 10) :
    decDigits n = [Nat.digitChar n] := by
  rw [decDigits]
  exact dif_pos h

theorem decDigits_large (n : Nat) (h : ¬ n < 10) :
    decDigits n = decDigits (n / 10) ++ [Nat.digitChar (n % 10)] := by
  conv_lhs => rw [decDigits]
  exact dif_neg h

theorem decDigits_ne_nil (n : Nat) : decDigits n ≠ [] := by
  by_cases h : n < 10
  · rw [decDigits_small n h]
    simp
  · rw [decDigits_large n h]
    simp

/-- The fueled digit printer from core agrees with `decDigits` whenever the
fuel suffices. -/
theorem toDigitsCore_eq_decDigits :
    ∀ (fuel n : Nat) (ds : List Char), n < fuel →
      Nat.toDigitsCore 10 fuel n ds = decDigits n ++ ds := by
  intro fuel
  induction fuel with
  | zero =>
    intro n ds h
    omega
  | succ fuel ih =>
    intro n ds h
    simp only [Nat.toDigitsCore]
    by_cases h10 : n / 10 = 0
    · have hn : n < 10 := by omega
      rw [if_pos h10, decDigits_small n hn, Nat.mod_eq_of_lt hn]
      rfl
    · have hlt : n / 10 < fuel := by
        have hd : n / 10 < n := Nat.div_lt_self (by omega) (by omega)
        omega
      rw [if_neg h10, ih (n / 10) (Nat.digitChar (n % 10) :: ds) hlt,
        decDigits_large n (by omega)]
      simp

theorem toDigits_eq_decDigits (n : Nat) : Nat.toDigits 10 n = decDigits n := by
  unfold Nat.toDigits
  rw [toDigitsCore_eq_decDigits (n + 1) n [] (Nat.lt_succ_self n)]
  simp

theorem digitChar_inj_lt : ∀ a < 10, ∀ b < 10,
    Nat.digitChar a = Nat.digitChar b → a = b := by decide

theorem decDigits_inj : ∀ m n : Nat, decDigits m = decDigits n → m = n := by
  intro m
  induction m using Nat.strong_induction_on with
  | _ m ih =>
    intro n h
    by_cases hm : m < 10 <;> by_cases hn : n < 10
    · rw [decDigits_small m hm, decDigits_small n hn] at h
      have hd : Nat.digitChar m = Nat.digitChar n := by simpa using h
      exact digitChar_inj_lt m hm n hn hd
    · rw [decDigits_small m hm, decDigits_large n hn] at h
      have hlen := congrArg List.length h
      have hp : 0 < (decDigits (n / 10)).length :=
        List.length_pos.mpr (decDigits_ne_nil _)
      simp only [List.length_singleton, List.length_append, List.length_cons,
        List.length_nil] at hlen
      omega
    · rw [decDigits_large m hm, decDigits_small n hn] at h
      have hlen := congrArg List.length h
      have hp : 0 < (decDigits (m / 10)).length :=
        List.length_pos.mpr (decDigits_ne_nil _)
      simp only [List.length_singleton, List.length_append, List.length_cons,
        List.length_nil] at hlen
      omega
    · rw [decDigits_large m hm, decDigits_large n hn] at h
      have h2 := congrArg List.reverse h
      simp only [List.reverse_append, List.reverse_cons, List.reverse_nil,
        List.nil_append, List.singleton_append, List.cons.injEq] at h2
      obtain ⟨hd, htl⟩ := h2
      have hmod : m % 10 = n % 10 :=
        digitChar_inj_lt (m % 10) (Nat.mod_lt m (by omega)) (n % 10)
          (Nat.mod_lt n (by omega)) hd
      have hdiv : m / 10 = n / 10 := by
        apply ih (m / 10) (Nat.div_lt_self (by omega) (by omega))
        exact List.reverse_injective htl
      omega

/-- The decimal string of a natural number determines it. -/
theorem natToString_inj (m n : Nat) (h : toString m = toString n) : m = n := by
  have h2 : Nat.toDigits 10 m = Nat.toDigits 10 n := congrArg String.data h
  rw [toDigits_eq_decDigits, toDigits_eq_decDigits] at h2
  exact decDigits_inj m n h2

/-- C6 counterexample: two adds processed in the same millisecond (both with
`Date.now() = 5`) generate the same id, so betu's dare list holds duplicate
ids. -/
theorem same_millisecond_ids_collide :
    (findUser dupState "betu").map (fun u => u.dares.map Item.id) = some ["5", "5"] ∧
    ¬ (["5", "5"] : List String).Nodup := by
  constructor
  · decide
  · decide

/-- C6 (amended): the freshly generated id is the decimal string of the
handler's millisecond timestamp, so two adds to the same collection get
distinct ids exactly when their timestamps differ; with equal timestamps the
ids coincide. -/
theorem add_fresh_ids_distinct_iff_times_distinct (s : ServerState) (sock : Profile)
    (t1 t2 : Nat) (text1 text2 : String) (u0 : Profile)
    (hfind : findUser s sock.id = some u0) (hne : t1 ≠ t2) :
    (findUser (addDare (addDare s sock t1 text1).1 sock t2 text2).1 sock.id).map
        (fun u => u.dares.map Item.id) =
      some (u0.dares.map Item.id ++ [toString t1, toString t2]) ∧
    (findUser (addTruth (addTruth s sock t1 text1).1 sock t2 text2).1 sock.id).map
        (fun u => u.truths.map Item.id) =
      some (u0.truths.map Item.id ++ [toString t1, toString t2]) ∧
    toString t1 ≠ toString t2 := by
  refine ⟨?_, ?_, fun heq => hne (natToString_inj t1 t2 heq)⟩
  · have h1 : findUser
        (ServerState.mk
          (updateFirst s.users (fun u => u.id == sock.id)
            (fun u => { u with dares := u.dares ++ [⟨toString t1, text1⟩] }))
          s.messages) sock.id =
        some { u0 with dares := u0.dares ++ [⟨toString t1, text1⟩] } :=
      findUserIn_updateFirst s.users sock.id _ u0 hfind rfl
    have h2 : findUser
        (ServerState.mk
          (updateFirst (addDare s sock t1 text1).1.users (fun u => u.id == sock.id)
            (fun u => { u with dares := u.dares ++ [⟨toString t2, text2⟩] }))
          (addDare s sock t1 text1).1.messages) sock.id =
        some { u0 with dares := (u0.dares ++ [⟨toString t1, text1⟩]) ++ [⟨toString t2, text2⟩] } := by
      apply findUserIn_updateFirst (addDare s sock t1 text1).1.users sock.id _
        { u0 with dares := u0.dares ++ [⟨toString t1, text1⟩] } _ rfl
      rw [addDare_state s sock t1 text1]
      exact h1
    rw [addDare_state (addDare s sock t1 text1).1 sock t2 text2, h2]
    simp
  · have h1 : findUser
        (ServerState.mk
          (updateFirst s.users (fun u => u.id == sock.id)
            (fun u => { u with truths := u.truths ++ [⟨toString t1, text1⟩] }))
          s.messages) sock.id =
        some { u0 with truths := u0.truths ++ [⟨toString t1, text1⟩] } :=
      findUserIn_updateFirst s.users sock.id _ u0 hfind rfl
    have h2 : findUser
        (ServerState.mk
          (updateFirst (addTruth s sock t1 text1).1.users (fun u => u.id == sock.id)
            (fun u => { u with truths := u.truths ++ [⟨toString t2, text2⟩] }))
          (addTruth s sock t1 text1).1.messages) sock.id =
        some { u0 with truths := (u0.truths ++ [⟨toString t1, text1⟩]) ++ [⟨toString t2, text2⟩] } := by
      apply findUserIn_updateFirst (addTruth s sock t1 text1).1.users sock.id _
        { u0 with truths := u0.truths ++ [⟨toString t1, text1⟩] } _ rfl
      rw [addTruth_state s sock t1 text1]
      exact h1
    rw [addTruth_state (addTruth s sock t1 text1).1 sock t2 text2, h2]
    simp

/-- C6 witness: adds at milliseconds 5 and 6 yield the distinct ids "5" and
"6" in both collections. -/
theorem add_fresh_ids_distinct_witness :
    (findUser (addDare (addDare initialState sockBetu 5 "a").1 sockBetu 6 "b").1 "betu").map
        (fun u => u.dares.map Item.id) = some ["5", "6"] ∧
    (findUser (addTruth (addTruth initialState sockBetu 5 "a").1 sockBetu 6 "b").1 "betu").map
        (fun u => u.truths.map Item.id) = some ["5", "6"] ∧
    toString 5 ≠ toString 6 := by
  have h := add_fresh_ids_distinct_iff_times_distinct initialState sockBetu 5 6 "a" "b"
    ⟨"betu", "bubu", "shona (shri)", [], []⟩ (by decide) (by decide)
  exact h

/-- The JS index `Math.floor(r * M)` lands inside the pool. -/
theorem revealIndex_lt (r : ℚ) (M : ℕ) (h0 : 0 ≤ r) (h1 : r < 1) (hM : 0 < M) :
    revealIndex r M < M := by
  have hMQ : (0 : ℚ) < (M : ℚ) := by exact_mod_cast hM
  have hup : r * (M : ℚ) < (M : ℚ) := by
    calc r * (M : ℚ) < 1 * (M : ℚ) := mul_lt_mul_of_pos_right h1 hMQ
    _ = (M : ℚ) := one_mul _
  have hfl : Int.floor (r * (M : ℚ)) < (M : ℤ) := by
    rw [Int.floor_lt]
    exact_mod_cast hup
  have hnn : 0 ≤ Int.floor (r * (M : ℚ)) :=
    Int.le_floor.mpr (by exact_mod_cast mul_nonneg h0 hMQ.le)
  unfold revealIndex
  omega

/-- The draws selecting index `i` are exactly the rationals in
`[i/M, (i+1)/M)`. -/
theorem revealIndex_eq_iff (M : ℕ) (hM : 0 < M) (i : ℕ) (x : ℚ) (h0 : 0 ≤ x) :
    revealIndex x M = i ↔
      (i : ℚ) / (M : ℚ) ≤ x ∧ x < ((i : ℚ) + 1) / (M : ℚ) := by
  have hMQ : (0 : ℚ) < (M : ℚ) := by exact_mod_cast hM
  have hnn : 0 ≤ Int.floor (x * (M : ℚ)) :=
    Int.le_floor.mpr (by exact_mod_cast mul_nonneg h0 hMQ.le)
  unfold revealIndex
  constructor
  · intro hi
    have hfloor : Int.floor (x * (M : ℚ)) = (i : ℤ) := by omega
    rw [Int.floor_eq_iff] at hfloor
    obtain ⟨hl, hr⟩ := hfloor
    constructor
    · rw [div_le_iff₀ hMQ]
      exact_mod_cast hl
    · rw [lt_div_iff₀ hMQ]
      push_cast at hr ⊢
      linarith
  · rintro ⟨hl, hr⟩
    rw [div_le_iff₀ hMQ] at hl
    rw [lt_div_iff₀ hMQ] at hr
    have hfloor : Int.floor (x * (M : ℚ)) = (i : ℤ) := by
      rw [Int.floor_eq_iff]
      constructor
      · exact_mod_cast hl
      · push_cast
        linarith
    omega

/-- Output of `revealItem` on a non-empty pool at draw `r`. -/
theorem revealItem_nonempty (s : ServerState) (sock : Profile) (r : ℚ)
    (hM : 0 < (revealPool s sock).length)
    (hlt : revealIndex r (revealPool s sock).length < (revealPool s sock).length) :
    revealItem s sock r =
      (s,
       [(Target.toSelf, EventOut.revealResult
          ((revealPool s sock).get ⟨revealIndex r (revealPool s sock).length, hlt⟩).text),
        (Target.toOthers, EventOut.revealNotification sock.username
          ((revealPool s sock).get ⟨revealIndex r (revealPool s sock).length, hlt⟩).text)]) := by
  have hget : (revealPool s sock).getD (revealIndex r (revealPool s sock).length) ⟨"", ""⟩ =
      (revealPool s sock).get ⟨revealIndex r (revealPool s sock).length, hlt⟩ := by
    rw [List.getD_eq_getElem?_getD, List.getElem?_eq_getElem hlt]
    rfl
  simp only [revealItem]
  rw [if_pos hM, hget]

/-- C2: with a non-empty pool, the handler returns the text of
`pool[floor(r * M)]` to the requester (and notifies the others), never
mutates the state (draws are with replacement from an unchanged pool), and
for every index `i` the draws `x ∈ [0,1)` selecting `i` form exactly the
interval `[i/M, (i+1)/M)`, of measure `1/M` — flat over items regardless of
owner or collection. -/
theorem revealItem_uniform (s : ServerState) (sock : Profile) (r : ℚ)
    (h0 : 0 ≤ r) (h1 : r < 1) (hM : 0 < (revealPool s sock).length) :
    (∃ hlt : revealIndex r (revealPool s sock).length < (revealPool s sock).length,
      revealItem s sock r =
        (s,
         [(Target.toSelf, EventOut.revealResult
            ((revealPool s sock).get ⟨revealIndex r (revealPool s sock).length, hlt⟩).text),
          (Target.toOthers, EventOut.revealNotification sock.username
            ((revealPool s sock).get ⟨revealIndex r (revealPool s sock).length, hlt⟩).text)])) ∧
    (revealItem s sock r).1 = s ∧
    revealPool (revealItem s sock r).1 sock = revealPool s sock ∧
    (∀ i : ℕ, ∀ x : ℚ, 0 ≤ x →
      (revealIndex x (revealPool s sock).length = i ↔
        (i : ℚ) / ((revealPool s sock).length : ℚ) ≤ x ∧
          x < ((i : ℚ) + 1) / ((revealPool s sock).length : ℚ))) ∧
    (∀ i : ℕ,
      ((i : ℚ) + 1) / ((revealPool s sock).length : ℚ) -
          (i : ℚ) / ((revealPool s sock).length : ℚ) =
        1 / ((revealPool s sock).length : ℚ)) := by
  refine ⟨⟨revealIndex_lt r _ h0 h1 hM, revealItem_nonempty s sock r hM _⟩,
    revealItem_state s sock r, ?_, ?_, ?_⟩
  · rw [revealItem_state s sock r]
  · intro i x hx
    exact revealIndex_eq_iff _ hM i x hx
  · intro i
    rw [div_sub_div_same]
    norm_num

/-- C2 witness: with exactly one foreign item, the draw 1/2 selects index 0
and the requester receives that item's text; the index-0 interval is all of
the unit interval. -/
theorem revealItem_uniform_witness :
    (∃ hlt : revealIndex (1/2) (revealPool revealState sockBetu).length <
        (revealPool revealState sockBetu).length,
      revealItem revealState sockBetu (1/2) =
        (revealState,
         [(Target.toSelf, EventOut.revealResult
            ((revealPool revealState sockBetu).get
              ⟨revealIndex (1/2) (revealPool revealState sockBetu).length, hlt⟩).text),
          (Target.toOthers, EventOut.revealNotification sockBetu.username
            ((revealPool revealState sockBetu).get
              ⟨revealIndex (1/2) (revealPool revealState sockBetu).length, hlt⟩).text)])) ∧
    (revealItem revealState sockBetu (1/2)).1 = revealState ∧
    revealPool (revealItem revealState sockBetu (1/2)).1 sockBetu =
      revealPool revealState sockBetu ∧
    (∀ i : ℕ, ∀ x : ℚ, 0 ≤ x →
      (revealIndex x (revealPool revealState sockBetu).length = i ↔
        (i : ℚ) / ((revealPool revealState sockBetu).length : ℚ) ≤ x ∧
          x < ((i : ℚ) + 1) / ((revealPool revealState sockBetu).length : ℚ))) ∧
    (∀ i : ℕ,
      ((i : ℚ) + 1) / ((revealPool revealState sockBetu).length : ℚ) -
          (i : ℚ) / ((revealPool revealState sockBetu).length : ℚ) =
        1 / ((revealPool revealState sockBetu).length : ℚ)) :=
  revealItem_uniform revealState sockBetu (1/2) (by norm_num) (by norm_num) (by decide)
